import Mathlib

/-!
FrogLog audio-transcription pipeline: shallow embedding and verification.

This file embeds the audio-transcription subsystem of the FrogLog backend
(routes/audio.js, routes/logTypes.js, jobs/transcriptionProcessor.js,
config/queue.js, models/LogEntry.js) as executable Lean definitions and
proves properties of the transcription lifecycle: the status state machine,
the queue/inline decision of the dispatcher, the success and failure
writes, and the transcript post-processor.

Modelling conventions:
* Mongoose documents become Lean structures; the persistent store for a
  single log entry is an `Option LogEntry` (the result of
  `LogEntry.findOne`/`findById`), and `save()` replaces the stored value.
* The filesystem and the two Google speech calls are an environment of
  fallible functions (`WorkerEnv`); `fs.stat` + `fs.readFile` collapse into
  one fallible read that yields the payload size in bytes, which is all the
  worker inspects.  Backend results collapse to the transcript string, the
  only field the worker persists.
* JavaScript `throw`/`catch` becomes `Except`; the JSON error
  responses become an `ApiError` sum.
* Each embedded operation also returns the list of speech-backend calls it
  performed, so that routing decisions (short-form vs long-form call) are
  observable in theorems.
-/

/-- The `transcriptionStatus` enum of the `audioRecordings` sub-schema in
models/LogEntry.js. -/
inductive TranscriptionStatus where
  | not_requested
  | pending
  | processing
  | completed
  | failed
deriving DecidableEq, Repr

/-- One element of `logEntry.audioRecordings` (models/LogEntry.js).
Mongoose `null` defaults become `none`; timestamps are abstract `Nat`s. -/
structure AudioRecording where
  url : String
  filename : String
  size : Nat
  duration : Option Nat := none
  uploadedAt : Nat := 0
  transcript : Option String := none
  transcriptionStatus : TranscriptionStatus := .not_requested
  transcriptionError : Option String := none
  transcriptionTimestamp : Option Nat := none
  improvedTranscript : Option String := none
  improvedTranscriptTimestamp : Option Nat := none
deriving DecidableEq, Repr

/-- The slice of a LogEntry document that the transcription subsystem
reads and writes. -/
structure LogEntry where
  audioRecordings : List AudioRecording
deriving DecidableEq, Repr

/-- Which of the two speech-backend entry points (config/googleCloud.js)
a worker invocation called: `transcribeAudio` (short) or
`transcribeLongAudio` (long). -/
inductive BackendCall where
  | short
  | long
deriving DecidableEq, Repr

/-- The environment a worker run observes: the stored audio files (a read
returns the payload size in bytes or throws an I/O error message), the two
speech-backend calls (each returns a transcript or throws), and the clock
used for `new Date()` stamps. -/
structure WorkerEnv where
  readFile : String → Except String Nat
  shortCall : Nat → Except String String
  longCall : Nat → Except String String
  now : Nat

/-- In-place mutation of the array element at index `i`
(`logEntry.audioRecordings[i].field = v`): out-of-range indices leave the
list unchanged, matching the JavaScript no-op on a missing element guarded
by the callers. -/
def setRec : List AudioRecording → Nat → (AudioRecording → AudioRecording) → List AudioRecording
  | [], _, _ => []
  | a :: as, 0, f => f a :: as
  | a :: as, n + 1, f => a :: setRec as n f

/-- Mutation `logEntry.audioRecordings[i] = f(...)` followed by `save()`. -/
def updateRec (e : LogEntry) (i : Nat) (f : AudioRecording → AudioRecording) : LogEntry :=
  { e with audioRecordings := setRec e.audioRecordings i f }

/-- Result of one run of the inline worker `ProcessTranscription`
(routes/audio.js): the log entry as last saved, the JS return/throw, and
the backend calls made. -/
structure PTResult where
  entry : LogEntry
  outcome : Except String String
  calls : List BackendCall
deriving Repr

/-- The 1 MB threshold of routes/audio.js: `fileSizeInMB > 1` with
`fileSizeInMB = stats.size / (1024 * 1024)`, i.e. `size > 1048576`. -/
def oneMB : Nat := 1024 * 1024

/-- Helper `ProcessTranscription(logEntry, audioIndex)` from routes/audio.js:
reads the audio file, picks the long-running call for payloads over 1 MB
and the synchronous call otherwise, and on success writes `transcript`,
status `completed` and `transcriptionTimestamp` (leaving
`transcriptionError` as it was); any thrown error is caught, status
`failed` and `transcriptionError` are saved, and the error is re-thrown. -/
def ProcessTranscription (env : WorkerEnv) (logEntry : LogEntry) (audioIndex : Nat) : PTResult :=
  match logEntry.audioRecordings[audioIndex]? with
  | none =>
      -- reading `.url` of an undefined element throws before any save
      { entry := logEntry, outcome := .error "Cannot read properties of undefined", calls := [] }
  | some audio =>
      match env.readFile audio.url with
      | .error e =>
          { entry := updateRec logEntry audioIndex fun a =>
              { a with transcriptionStatus := .failed, transcriptionError := some e }
            outcome := .error e, calls := [] }
      | .ok size =>
          if size > oneMB then
            match env.longCall size with
            | .error e =>
                { entry := updateRec logEntry audioIndex fun a =>
                    { a with transcriptionStatus := .failed, transcriptionError := some e }
                  outcome := .error e, calls := [.long] }
            | .ok t =>
                { entry := updateRec logEntry audioIndex fun a =>
                    { a with transcript := some t, transcriptionStatus := .completed,
                             transcriptionTimestamp := some env.now }
                  outcome := .ok t, calls := [.long] }
          else
            match env.shortCall size with
            | .error e =>
                { entry := updateRec logEntry audioIndex fun a =>
                    { a with transcriptionStatus := .failed, transcriptionError := some e }
                  outcome := .error e, calls := [.short] }
            | .ok t =>
                { entry := updateRec logEntry audioIndex fun a =>
                    { a with transcript := some t, transcriptionStatus := .completed,
                             transcriptionTimestamp := some env.now }
                  outcome := .ok t, calls := [.short] }

/-- Structured versions of the JSON error responses of the audio routes. -/
inductive ApiError where
  | entryNotFound
  | audioNotFound
  | transcriptionInProgress
  | transcriptionError (details : String)
  | transcriptRequired
  | improveError (details : String)
deriving DecidableEq, Repr

/-- Result of one audio-route request: the store after all saves, the HTTP
response (success payload or error), and the backend calls made. -/
structure RouteResult where
  store : Option LogEntry
  response : Except ApiError (Option String)
  calls : List BackendCall
deriving Repr

/-- Route `POST /transcribe/:entryId/:audioIndex` (routes/audio.js): rejects a
missing entry or recording, rejects status `processing` with
`TRANSCRIPTION_IN_PROGRESS`, otherwise persists status `processing` and
runs `ProcessTranscription` inline, answering with the stored
transcript on success and a `TRANSCRIPTION_ERROR` response on failure. -/
def requestTranscription (env : WorkerEnv) (store : Option LogEntry) (audioIndex : Nat) :
    RouteResult :=
  match store with
  | none => { store := store, response := .error .entryNotFound, calls := [] }
  | some logEntry =>
      match logEntry.audioRecordings[audioIndex]? with
      | none => { store := store, response := .error .audioNotFound, calls := [] }
      | some audio =>
          if audio.transcriptionStatus = .processing then
            { store := store, response := .error .transcriptionInProgress, calls := [] }
          else
            let entry1 := updateRec logEntry audioIndex fun a =>
              { a with transcriptionStatus := .processing }
            let pt := ProcessTranscription env entry1 audioIndex
            match pt.outcome with
            | .ok _ =>
                { store := some pt.entry
                  response := .ok ((pt.entry.audioRecordings[audioIndex]?).bind
                    fun a => a.transcript)
                  calls := pt.calls }
            | .error e =>
                { store := some pt.entry, response := .error (.transcriptionError e)
                  calls := pt.calls }

/-- The payload of a Bull transcription job
(`{ entryId, audioUrl, recordingIndex }`, routes/logTypes.js). -/
structure JobData where
  entryId : String
  audioUrl : String
  recordingIndex : Option Nat
deriving DecidableEq, Repr

/-- The `defaultJobOptions` object of config/queue.js. -/
structure JobOptions where
  attempts : Nat
  backoffType : String
  backoffDelay : Nat
  removeOnComplete : Nat
  removeOnFail : Nat
deriving DecidableEq, Repr

/-- config/queue.js: retry up to 3 attempts, exponential backoff from a
2000 ms base, keep the last 100 completed and last 200 failed jobs. -/
def defaultJobOptions : JobOptions :=
  { attempts := 3, backoffType := "exponential", backoffDelay := 2000
    removeOnComplete := 100, removeOnFail := 200 }

/-- A job as handed to `transcriptionQueue.add(data, defaultJobOptions)`. -/
structure QueuedJob where
  data : JobData
  opts : JobOptions
deriving DecidableEq, Repr

/-- Modelled from the spec: the retry machinery of Bull is in the external
`bull` library, not under src/.  Per §4.3, "each job attempt that throws
is retried up to 3 times total": after an attempt that threw, a retry is
scheduled exactly when fewer than `opts.attempts` attempts have been
made. -/
def bullSchedulesRetry (opts : JobOptions) (attemptsMade : Nat) (threw : Bool) : Bool :=
  threw && decide (attemptsMade < opts.attempts)

/-- Result of one queue-consumer attempt (jobs/transcriptionProcessor.js):
the store after all saves, the return value or re-thrown error (a
thrown error is what the retry machinery of Bull reacts to), and the backend
calls made. -/
structure JobRunResult where
  store : Option LogEntry
  outcome : Except String String
  calls : List BackendCall
deriving Repr

/-- The `transcriptionQueue.process` handler of
jobs/transcriptionProcessor.js: re-fetches the entry by id, resolves the
recording at `job.data.recordingIndex || 0`, persists status `processing`,
reads the file and always calls the short-form `transcribeAudio`; on
success writes `transcript`, status `completed`, `transcriptionTimestamp`
and clears `transcriptionError`; on any thrown error re-fetches the entry,
persists status `failed` with the error message, and re-throws for Bull to
retry. -/
def processJob (env : WorkerEnv) (store : Option LogEntry) (job : JobData) : JobRunResult :=
  match store with
  | none =>
      -- throw "Log entry not found"; the catch re-fetch also finds nothing
      { store := store, outcome := .error ("Log entry " ++ job.entryId ++ " not found")
        calls := [] }
  | some logEntry =>
      -- `job.data.recordingIndex || 0` (0 and undefined both give 0)
      let index := job.recordingIndex.getD 0
      match logEntry.audioRecordings[index]? with
      | none =>
          -- thrown before any save; the catch finds the index still missing
          { store := store
            outcome := .error ("No audio recording found at index for entry " ++ job.entryId)
            calls := [] }
      | some recording =>
          if recording.url = "" then
            -- `!recording.url` throws; the catch persists the failure
            { store := some (updateRec logEntry index fun a =>
                { a with transcriptionStatus := .failed,
                         transcriptionError := some ("No audio URL found for recording in entry "
                           ++ job.entryId) })
              outcome := .error ("No audio URL found for recording in entry " ++ job.entryId)
              calls := [] }
          else
            let entry1 := updateRec logEntry index fun a =>
              { a with transcriptionStatus := .processing }
            match env.readFile recording.url with
            | .error e =>
                { store := some (updateRec entry1 index fun a =>
                    { a with transcriptionStatus := .failed, transcriptionError := some e })
                  outcome := .error e, calls := [] }
            | .ok size =>
                match env.shortCall size with
                | .error e =>
                    { store := some (updateRec entry1 index fun a =>
                        { a with transcriptionStatus := .failed, transcriptionError := some e })
                      outcome := .error e, calls := [.short] }
                | .ok t =>
                    { store := some (updateRec entry1 index fun a =>
                        { a with transcript := some t, transcriptionStatus := .completed,
                                 transcriptionTimestamp := some env.now,
                                 transcriptionError := none })
                      outcome := .ok t, calls := [.short] }

/-- Helper `transcribeSynchronously(logEntry)` from routes/logTypes.js: processes
the first recording with the short-form call only; its catch persists the
failure and swallows the error (no re-throw). -/
def transcribeSynchronously (env : WorkerEnv) (logEntry : LogEntry) :
    LogEntry × List BackendCall :=
  match logEntry.audioRecordings[0]? with
  | none => (logEntry, [])
  | some recording =>
      match env.readFile recording.url with
      | .error e =>
          (updateRec logEntry 0 fun a =>
            { a with transcriptionStatus := .failed, transcriptionError := some e }, [])
      | .ok size =>
          match env.shortCall size with
          | .error e =>
              (updateRec logEntry 0 fun a =>
                { a with transcriptionStatus := .failed, transcriptionError := some e }, [.short])
          | .ok t =>
              (updateRec logEntry 0 fun a =>
                { a with transcript := some t, transcriptionStatus := .completed,
                         transcriptionTimestamp := some env.now }, [.short])

/-- The fresh `audioRecording` object built by the create-entry route
(routes/logTypes.js) when an audio file accompanies entry creation: its
`transcriptionStatus` is `processing` from the moment it is persisted. -/
def createEntryAudioRecording (url filename : String) (size now : Nat) : AudioRecording :=
  { url := url, filename := filename, size := size,
    transcriptionStatus := .processing, uploadedAt := now }

/-- Result of the create-entry dispatch branch: the entry as persisted
when the route returns, the jobs handed to the queue, and the backend
calls made inline. -/
structure DispatchResult where
  entry : LogEntry
  jobs : List QueuedJob
  calls : List BackendCall
deriving Repr

/-- The dispatch branch of `POST /` in routes/logTypes.js (after the entry
with its audio recording was saved): if Redis is available and the queue
object exists, enqueue a job with `defaultJobOptions` (falling back to
`transcribeSynchronously` if `add` throws); otherwise transcribe
synchronously.  `redisAvailable`/`queueConfigured` mirror the
`redisAvailable && transcriptionQueue` guard, `enqueueThrows` whether
`transcriptionQueue.add` throws. -/
def createEntryDispatch (env : WorkerEnv) (redisAvailable queueConfigured enqueueThrows : Bool)
    (entryId : String) (logEntry : LogEntry) : DispatchResult :=
  if logEntry.audioRecordings.length > 0 then
    let audioUrl := ((logEntry.audioRecordings[0]?).map fun a => a.url).getD ""
    if redisAvailable && queueConfigured then
      if enqueueThrows then
        let s := transcribeSynchronously env logEntry
        { entry := s.1, jobs := [], calls := s.2 }
      else
        { entry := logEntry
          jobs := [{ data := { entryId := entryId, audioUrl := audioUrl, recordingIndex := some 0 }
                     opts := defaultJobOptions }]
          calls := [] }
    else
      let s := transcribeSynchronously env logEntry
      { entry := s.1, jobs := [], calls := s.2 }
  else
    { entry := logEntry, jobs := [], calls := [] }

/-- An uploaded audio file as the upload route sees it (multer memory
storage): original name, byte size, optional parsed duration. -/
structure UploadedFile where
  originalname : String
  size : Nat
  duration : Option Nat
deriving DecidableEq, Repr

/-- Result of `POST /upload/:entryId` (routes/audio.js): `atReturn` is the
store as persisted when the HTTP response is sent (the fire-and-forget
`ProcessTranscription(...).catch(...)` has not saved yet), `asyncFinal`
the store once that detached worker run has settled. -/
structure UploadResult where
  atReturn : LogEntry
  asyncFinal : LogEntry
  audioIndex : Nat
  calls : List BackendCall
deriving Repr

/-- Route `POST /upload/:entryId` (routes/audio.js) after the entry was found:
writes the file, pushes a new recording (schema default status
`not_requested`) and saves, then sets its status to `processing` and saves
again, and finally starts `ProcessTranscription` without awaiting it; the
response carries the new index and status `processing`. -/
def uploadAudioDispatch (env : WorkerEnv) (userId : String) (logEntry : LogEntry)
    (file : UploadedFile) : UploadResult :=
  let filename := userId ++ "_" ++ toString env.now ++ "_" ++ file.originalname
  let newAudio : AudioRecording :=
    { url := "/uploads/audio/" ++ filename, filename := file.originalname,
      size := file.size, duration := file.duration, uploadedAt := env.now }
  let entry0 : LogEntry := { logEntry with
    audioRecordings := logEntry.audioRecordings ++ [newAudio] }
  let audioIndex := entry0.audioRecordings.length - 1
  let entry1 := updateRec entry0 audioIndex fun a =>
    { a with transcriptionStatus := .processing }
  let pt := ProcessTranscription env entry1 audioIndex
  { atReturn := entry1, asyncFinal := pt.entry, audioIndex := audioIndex, calls := pt.calls }

/-- JavaScript falsiness of an optional string field
(`!audio.transcript`): null/undefined and the empty string are falsy. -/
def jsFalsy (s : Option String) : Bool :=
  s.getD "" = ""

/-- Environment of the transcript post-processor: the generative backend
(`model.generateContent`, a function of the transcript embedded in the
prompt) and the clock. -/
structure GenEnv where
  generate : String → Except String String
  now : Nat

/-- Result of `POST /improve-transcript/:entryId/:audioIndex`. -/
structure ImproveResult where
  store : Option LogEntry
  response : Except ApiError String
deriving Repr

/-- Route `POST /improve-transcript/:entryId/:audioIndex` (routes/audio.js):
rejects a missing entry or recording, rejects a falsy `transcript`
("Audio must be transcribed first"), otherwise asks the generative backend
to restructure the transcript and persists only `improvedTranscript` and
`improvedTranscriptTimestamp`; a backend throw is answered with a 500 and
nothing is saved. -/
def improveTranscript (env : GenEnv) (store : Option LogEntry) (audioIndex : Nat) :
    ImproveResult :=
  match store with
  | none => { store := store, response := .error .entryNotFound }
  | some logEntry =>
      match logEntry.audioRecordings[audioIndex]? with
      | none => { store := store, response := .error .audioNotFound }
      | some audio =>
          if jsFalsy audio.transcript then
            { store := store, response := .error .transcriptRequired }
          else
            match env.generate (audio.transcript.getD "") with
            | .error e => { store := store, response := .error (.improveError e) }
            | .ok improved =>
                { store := some (updateRec logEntry audioIndex fun a =>
                    { a with improvedTranscript := some improved,
                             improvedTranscriptTimestamp := some env.now })
                  response := .ok improved }

/-! ## Basic lemmas about recording updates -/

theorem setRec_getElem_self (l : List AudioRecording) (i : Nat)
    (f : AudioRecording → AudioRecording) : (setRec l i f)[i]? = (l[i]?).map f := by
  induction l generalizing i with
  | nil => simp [setRec]
  | cons a as ih =>
      cases i with
      | zero => simp [setRec]
      | succ n => simpa [setRec] using ih n

theorem setRec_getElem_ne (l : List AudioRecording) (i j : Nat)
    (f : AudioRecording → AudioRecording) (h : i ≠ j) : (setRec l i f)[j]? = l[j]? := by
  induction l generalizing i j with
  | nil => simp [setRec]
  | cons a as ih =>
      cases i with
      | zero =>
          cases j with
          | zero => exact absurd rfl h
          | succ m => simp [setRec]
      | succ n =>
          cases j with
          | zero => simp [setRec]
          | succ m => simpa [setRec] using ih n m (by omega)

theorem updateRec_getElem_self (e : LogEntry) (i : Nat)
    (f : AudioRecording → AudioRecording) :
    (updateRec e i f).audioRecordings[i]? = (e.audioRecordings[i]?).map f :=
  setRec_getElem_self _ _ _

theorem updateRec_getElem_ne (e : LogEntry) (i j : Nat)
    (f : AudioRecording → AudioRecording) (h : i ≠ j) :
    (updateRec e i f).audioRecordings[j]? = e.audioRecordings[j]? :=
  setRec_getElem_ne _ _ _ _ h

/-! ## Concrete instances used by witnesses and counterexamples -/

/-- A benign environment: every file reads as 10 bytes, both backend calls
succeed with fixed transcripts. -/
def envOk : WorkerEnv :=
  { readFile := fun _ => .ok 10, shortCall := fun _ => .ok "hello world",
    longCall := fun _ => .ok "long hello", now := 42 }

/-- A recording currently being transcribed. -/
def recProcessing : AudioRecording :=
  { url := "/uploads/audio/u_1_a.webm", filename := "a.webm", size := 10,
    transcriptionStatus := .processing }

/-- A freshly uploaded recording, transcription not yet requested. -/
def recFresh : AudioRecording :=
  { url := "/uploads/audio/u_1_b.webm", filename := "b.webm", size := 10 }

def entryProcessing : LogEntry := { audioRecordings := [recProcessing] }

def entryFresh : LogEntry := { audioRecordings := [recFresh] }

/-- Status of the recording at index `i` of an entry, as a status poll
reads it. -/
def recStatus (e : LogEntry) (i : Nat) : Option TranscriptionStatus :=
  (e.audioRecordings[i]?).map fun a => a.transcriptionStatus

/-- Transcript field of the recording at index `i`. -/
def recTranscript (e : LogEntry) (i : Nat) : Option (Option String) :=
  (e.audioRecordings[i]?).map fun a => a.transcript

/-- Error field of the recording at index `i`. -/
def recError (e : LogEntry) (i : Nat) : Option (Option String) :=
  (e.audioRecordings[i]?).map fun a => a.transcriptionError

/-- A successful inline worker run rewrites exactly the transcript, status
and timestamp of the addressed recording. -/
theorem ProcessTranscription_ok_rec (env : WorkerEnv) (entry : LogEntry) (i : Nat)
    (audio : AudioRecording) (t : String) (ha : entry.audioRecordings[i]? = some audio)
    (h : (ProcessTranscription env entry i).outcome = .ok t) :
    (ProcessTranscription env entry i).entry.audioRecordings[i]? =
      some { audio with
        transcript := some t
        transcriptionStatus := .completed
        transcriptionTimestamp := some env.now } := by
  simp only [ProcessTranscription, ha] at h ⊢
  cases hr : env.readFile audio.url with
  | error e0 => simp [hr] at h
  | ok size =>
      simp only [hr] at h ⊢
      by_cases hs : size > oneMB
      · simp only [if_pos hs] at h ⊢
        cases hl : env.longCall size with
        | error e0 => simp [hl] at h
        | ok t0 =>
            simp only [hl, Except.ok.injEq] at h ⊢
            subst h
            simp [updateRec_getElem_self, ha]
      · simp only [if_neg hs] at h ⊢
        cases hl : env.shortCall size with
        | error e0 => simp [hl] at h
        | ok t0 =>
            simp only [hl, Except.ok.injEq] at h ⊢
            subst h
            simp [updateRec_getElem_self, ha]

/-- A failed inline worker run rewrites exactly the status and error of
the addressed recording (its transcript survives untouched). -/
theorem ProcessTranscription_error_rec (env : WorkerEnv) (entry : LogEntry) (i : Nat)
    (audio : AudioRecording) (e : String) (ha : entry.audioRecordings[i]? = some audio)
    (h : (ProcessTranscription env entry i).outcome = .error e) :
    (ProcessTranscription env entry i).entry.audioRecordings[i]? =
      some { audio with
        transcriptionStatus := .failed
        transcriptionError := some e } := by
  simp only [ProcessTranscription, ha] at h ⊢
  cases hr : env.readFile audio.url with
  | error e0 =>
      simp only [hr, Except.error.injEq] at h ⊢
      subst h
      simp [updateRec_getElem_self, ha]
  | ok size =>
      simp only [hr] at h ⊢
      by_cases hs : size > oneMB
      · simp only [if_pos hs] at h ⊢
        cases hl : env.longCall size with
        | error e0 =>
            simp only [hl, Except.error.injEq] at h ⊢
            subst h
            simp [updateRec_getElem_self, ha]
        | ok t0 => simp [hl] at h
      · simp only [if_neg hs] at h ⊢
        cases hl : env.shortCall size with
        | error e0 =>
            simp only [hl, Except.error.injEq] at h ⊢
            subst h
            simp [updateRec_getElem_self, ha]
        | ok t0 => simp [hl] at h

/-- The inline worker always leaves the addressed (existing) recording in
a terminal state. -/
theorem ProcessTranscription_terminal (env : WorkerEnv) (entry : LogEntry) (i : Nat)
    (audio : AudioRecording) (ha : entry.audioRecordings[i]? = some audio) :
    recStatus (ProcessTranscription env entry i).entry i = some .completed
    ∨ recStatus (ProcessTranscription env entry i).entry i = some .failed := by
  cases h : (ProcessTranscription env entry i).outcome with
  | ok t =>
      left
      simp [recStatus, ProcessTranscription_ok_rec env entry i audio t ha h]
  | error e =>
      right
      simp [recStatus, ProcessTranscription_error_rec env entry i audio e ha h]

/-- The create-entry synchronous fallback always leaves the first
recording in a terminal state. -/
theorem transcribeSynchronously_terminal (env : WorkerEnv) (entry : LogEntry)
    (hne : entry.audioRecordings ≠ []) :
    recStatus (transcribeSynchronously env entry).1 0 = some .completed
    ∨ recStatus (transcribeSynchronously env entry).1 0 = some .failed := by
  obtain ⟨a, as, hl⟩ : ∃ a as, entry.audioRecordings = a :: as := by
    cases hl : entry.audioRecordings with
    | nil => exact absurd hl hne
    | cons a as => exact ⟨a, as, rfl⟩
  have h0 : entry.audioRecordings[0]? = some a := by rw [hl]; simp
  simp only [transcribeSynchronously, h0]
  cases hr : env.readFile a.url with
  | error e => right; simp [hr, recStatus, updateRec_getElem_self, h0]
  | ok size =>
      cases hs : env.shortCall size with
      | error e => right; simp [hr, hs, recStatus, updateRec_getElem_self, h0]
      | ok t => left; simp [hr, hs, recStatus, updateRec_getElem_self, h0]

/-- In its fallback branches (queue disabled, or enqueue throwing) the
create-entry dispatch is exactly the synchronous in-process worker run,
with no job enqueued. -/
theorem createEntryDispatch_fallback_eq (env : WorkerEnv) (ra qc et : Bool)
    (entryId : String) (entry : LogEntry) (hlen : 0 < entry.audioRecordings.length)
    (hfb : (ra && qc) = false ∨ et = true) :
    createEntryDispatch env ra qc et entryId entry =
      { entry := (transcribeSynchronously env entry).1, jobs := [],
        calls := (transcribeSynchronously env entry).2 } := by
  unfold createEntryDispatch
  rcases hfb with h | h
  · simp [hlen, h]
  · cases hq : (ra && qc) <;> simp [hlen, h, hq]

/-! ## C1: the re-entrancy guard of the retry endpoint -/

/-- C1: for a recording whose current `transcriptionStatus` is
`processing`, `POST /transcribe/:entryId/:audioIndex` fails with the
already-in-progress error, makes no backend call and leaves the store (and
hence the status) unchanged; for any other current status it persists
status `processing` and runs the `ProcessTranscription` worker logic
inline on that transitioned entry. -/
theorem requestTranscription_processing_guard
    (env : WorkerEnv) (entry : LogEntry) (i : Nat) (audio : AudioRecording)
    (ha : entry.audioRecordings[i]? = some audio) :
    (audio.transcriptionStatus = .processing →
      requestTranscription env (some entry) i =
        { store := some entry, response := .error .transcriptionInProgress, calls := [] })
    ∧ (audio.transcriptionStatus ≠ .processing →
      requestTranscription env (some entry) i =
        (let pt := ProcessTranscription env
          (updateRec entry i fun a => { a with transcriptionStatus := .processing }) i
         { store := some pt.entry
           response := match pt.outcome with
             | .ok _ => .ok ((pt.entry.audioRecordings[i]?).bind fun a => a.transcript)
             | .error e => .error (.transcriptionError e)
           calls := pt.calls })) := by
  constructor
  · intro h
    simp [requestTranscription, ha, h]
  · intro h
    simp only [requestTranscription, ha]
    rw [if_neg h]
    cases hpt : (ProcessTranscription env
        (updateRec entry i fun a => { a with transcriptionStatus := .processing }) i).outcome <;>
      simp [hpt]

/-- Witness for C1 at concrete inputs: the guard fires on a `processing`
recording, and a `not_requested` recording is transitioned and processed
inline. -/
theorem requestTranscription_processing_guard_witness :
    requestTranscription envOk (some entryProcessing) 0 =
      { store := some entryProcessing, response := .error .transcriptionInProgress,
        calls := [] }
    ∧ requestTranscription envOk (some entryFresh) 0 =
      (let pt := ProcessTranscription envOk
        (updateRec entryFresh 0 fun a => { a with transcriptionStatus := .processing }) 0
       { store := some pt.entry
         response := match pt.outcome with
           | .ok _ => .ok ((pt.entry.audioRecordings[0]?).bind fun a => a.transcript)
           | .error e => .error (.transcriptionError e)
         calls := pt.calls }) :=
  ⟨(requestTranscription_processing_guard envOk entryProcessing 0 recProcessing rfl).1 rfl,
   (requestTranscription_processing_guard envOk entryFresh 0 recFresh rfl).2 (by decide)⟩

/-- The upload route persists the new recording with status `processing`
before firing the worker, and the detached worker run leaves it
terminal. -/
theorem uploadAudioDispatch_status (env : WorkerEnv) (userId : String) (entry : LogEntry)
    (file : UploadedFile) :
    recStatus (uploadAudioDispatch env userId entry file).atReturn
      (uploadAudioDispatch env userId entry file).audioIndex = some .processing
    ∧ (recStatus (uploadAudioDispatch env userId entry file).asyncFinal
        (uploadAudioDispatch env userId entry file).audioIndex = some .completed
      ∨ recStatus (uploadAudioDispatch env userId entry file).asyncFinal
        (uploadAudioDispatch env userId entry file).audioIndex = some .failed) := by
  simp only [uploadAudioDispatch]
  set filename := userId ++ "_" ++ toString env.now ++ "_" ++ file.originalname with hf
  set newAudio : AudioRecording :=
    { url := "/uploads/audio/" ++ filename, filename := file.originalname,
      size := file.size, duration := file.duration, uploadedAt := env.now } with hn
  set entry0 : LogEntry := { entry with
    audioRecordings := entry.audioRecordings ++ [newAudio] } with he0
  have hidx : entry0.audioRecordings.length - 1 = entry.audioRecordings.length := by
    simp [he0]
  have h0 : entry0.audioRecordings[entry.audioRecordings.length]? = some newAudio := by
    simp [he0, List.getElem?_append_right]
  have h1 : (updateRec entry0 (entry0.audioRecordings.length - 1) fun a =>
      { a with transcriptionStatus := .processing }).audioRecordings[entry0.audioRecordings.length - 1]? =
      some { newAudio with transcriptionStatus := .processing } := by
    rw [updateRec_getElem_self, hidx, h0]
    rfl
  refine ⟨?_, ?_⟩
  · simp only [recStatus, hidx] at h1 ⊢
    rw [h1]
    rfl
  · exact ProcessTranscription_terminal env _ _ _ h1

/-- The create-entry dispatch never writes `not_requested`: if the first
recording is not in status `not_requested` going in, it is not in status
`not_requested` in the entry the dispatch leaves behind. -/
theorem createEntryDispatch_no_not_requested (env : WorkerEnv) (ra qc et : Bool)
    (entryId : String) (entry : LogEntry) (h0 : recStatus entry 0 ≠ some .not_requested) :
    recStatus (createEntryDispatch env ra qc et entryId entry).entry 0 ≠
      some .not_requested := by
  by_cases hlen : entry.audioRecordings.length > 0
  · have hne : entry.audioRecordings ≠ [] := by
      intro h; rw [h] at hlen; exact absurd hlen (by simp)
    by_cases hq : (ra && qc) = true
    · by_cases he : et = true
      · rw [createEntryDispatch_fallback_eq env ra qc et entryId entry hlen (Or.inr he)]
        rcases transcribeSynchronously_terminal env entry hne with h | h <;> simp [h]
      · simp only [createEntryDispatch, if_pos hlen, hq, if_true, he, if_false]
        simpa using h0
    · rw [createEntryDispatch_fallback_eq env ra qc et entryId entry hlen
        (Or.inl (by simpa using hq))]
      rcases transcribeSynchronously_terminal env entry hne with h | h <;> simp [h]
  · simp only [createEntryDispatch, if_neg hlen]
    exact h0

/-! ## C2: synchronous fallback of the dispatchers -/

def entryEmpty : LogEntry := { audioRecordings := [] }

def fileHalfMB : UploadedFile :=
  { originalname := "a.webm", size := 524288, duration := none }

/-- C2 counterexample: the upload-route dispatch does not wait for the
worker.  At the moment `POST /upload/:entryId` returns (here with no queue
in play at all — the route never consults one), the persisted
status of the new recording is still `processing`, not a terminal status, even in an
environment where transcription succeeds immediately. -/
theorem uploadDispatch_not_terminal_at_return :
    recStatus (uploadAudioDispatch envOk "u1" entryEmpty fileHalfMB).atReturn 0 =
      some .processing
    ∧ recStatus (uploadAudioDispatch envOk "u1" entryEmpty fileHalfMB).atReturn 0 ≠
      some .completed
    ∧ recStatus (uploadAudioDispatch envOk "u1" entryEmpty fileHalfMB).atReturn 0 ≠
      some .failed := by
  refine ⟨by rfl, by decide, by decide⟩

/-- C2 (amended): the create-entry dispatch satisfies the claim — when the
queue is unavailable (`redisAvailable && transcriptionQueue` false) or the
enqueue throws, it runs the worker synchronously and the target recording
is terminal (`completed` or `failed`) with no job enqueued by the time
dispatch returns.  The upload-route dispatch, by contrast, never consults
the queue and fires the worker without awaiting it: at return the
recording is still `processing`, and only the detached worker run leaves
it terminal. -/
theorem dispatch_fallback_terminal_states :
    (∀ (env : WorkerEnv) (ra qc et : Bool) (entryId : String) (entry : LogEntry),
      entry.audioRecordings ≠ [] → ((ra && qc) = false ∨ et = true) →
      (recStatus (createEntryDispatch env ra qc et entryId entry).entry 0 = some .completed
        ∨ recStatus (createEntryDispatch env ra qc et entryId entry).entry 0 = some .failed)
      ∧ (createEntryDispatch env ra qc et entryId entry).jobs = [])
    ∧ (∀ (env : WorkerEnv) (userId : String) (entry : LogEntry) (file : UploadedFile),
      recStatus (uploadAudioDispatch env userId entry file).atReturn
        (uploadAudioDispatch env userId entry file).audioIndex = some .processing
      ∧ (recStatus (uploadAudioDispatch env userId entry file).asyncFinal
          (uploadAudioDispatch env userId entry file).audioIndex = some .completed
        ∨ recStatus (uploadAudioDispatch env userId entry file).asyncFinal
          (uploadAudioDispatch env userId entry file).audioIndex = some .failed)) := by
  constructor
  · intro env ra qc et entryId entry hne hfb
    have hlen : 0 < entry.audioRecordings.length := by
      cases hl : entry.audioRecordings with
      | nil => exact absurd hl hne
      | cons a as => simp [hl]
    rw [createEntryDispatch_fallback_eq env ra qc et entryId entry hlen hfb]
    exact ⟨transcribeSynchronously_terminal env entry hne, rfl⟩
  · exact fun env userId entry file => uploadAudioDispatch_status env userId entry file

/-- Witness for C2 at concrete inputs: with the queue disabled, the
create-entry dispatch leaves recording 0 terminal and enqueues nothing. -/
theorem dispatch_fallback_terminal_states_witness :
    (recStatus (createEntryDispatch envOk false false false "e1" entryFresh).entry 0 =
        some .completed
      ∨ recStatus (createEntryDispatch envOk false false false "e1" entryFresh).entry 0 =
        some .failed)
    ∧ (createEntryDispatch envOk false false false "e1" entryFresh).jobs = [] :=
  dispatch_fallback_terminal_states.1 envOk false false false "e1" entryFresh
    (List.cons_ne_nil _ _) (Or.inl rfl)

/-! ## C3: backend selection by payload size -/

/-- An environment whose stored files read as 2 MB payloads. -/
def envBig : WorkerEnv :=
  { readFile := fun _ => .ok 2097152, shortCall := fun _ => .ok "short transcript",
    longCall := fun _ => .ok "long transcript", now := 7 }

def jobFresh : JobData :=
  { entryId := "e1", audioUrl := "/uploads/audio/u_1_b.webm", recordingIndex := some 0 }

/-- C3 counterexample: on the queue-consumer path a 2 MB payload (over the
1 MB threshold) is transcribed with the short-form `transcribeAudio` call;
the long-form call is never invoked. -/
theorem queue_path_large_payload_short_call :
    2097152 > oneMB
    ∧ envBig.readFile "/uploads/audio/u_1_b.webm" = .ok 2097152
    ∧ (processJob envBig (some entryFresh) jobFresh).calls = [.short]
    ∧ BackendCall.long ∉ (processJob envBig (some entryFresh) jobFresh).calls := by
  refine ⟨by decide, rfl, by decide, by decide⟩

/-- C3 (amended): the inline worker `ProcessTranscription` selects the
backend by payload size — long-form for payloads over 1 MB, short-form
otherwise — but the queue-consumer path and the create-entry synchronous
fallback always invoke the short-form call, never the long-form one,
regardless of size. -/
theorem worker_backend_selection :
    (∀ (env : WorkerEnv) (entry : LogEntry) (i : Nat) (audio : AudioRecording) (size : Nat),
      entry.audioRecordings[i]? = some audio → env.readFile audio.url = .ok size →
      (ProcessTranscription env entry i).calls =
        if size > oneMB then [.long] else [.short])
    ∧ (∀ (env : WorkerEnv) (store : Option LogEntry) (job : JobData),
      BackendCall.long ∉ (processJob env store job).calls)
    ∧ (∀ (env : WorkerEnv) (entry : LogEntry),
      BackendCall.long ∉ (transcribeSynchronously env entry).2) := by
  refine ⟨?_, ?_, ?_⟩
  · intro env entry i audio size ha hr
    simp only [ProcessTranscription, ha, hr]
    by_cases hs : size > oneMB
    · simp only [if_pos hs]
      cases hl : env.longCall size <;> simp [hl]
    · simp only [if_neg hs]
      cases hl : env.shortCall size <;> simp [hl]
  · intro env store job
    cases store with
    | none => simp [processJob]
    | some entry =>
        simp only [processJob]
        cases h : entry.audioRecordings[job.recordingIndex.getD 0]? with
        | none => simp
        | some r =>
            by_cases hu : r.url = ""
            · simp [hu]
            · simp only [if_neg hu]
              cases hr : env.readFile r.url with
              | error e => simp [hr]
              | ok size => cases hs : env.shortCall size <;> simp [hr, hs]
  · intro env entry
    simp only [transcribeSynchronously]
    cases h : entry.audioRecordings[0]? with
    | none => simp
    | some r =>
        cases hr : env.readFile r.url with
        | error e => simp [hr]
        | ok size => cases hs : env.shortCall size <;> simp [hr, hs]

/-- Witness for C3 at concrete inputs: the inline worker routes a 2 MB
payload to the long-form call, while the queue consumer and the
synchronous fallback never call long-form. -/
theorem worker_backend_selection_witness :
    (ProcessTranscription envBig entryFresh 0).calls =
      (if 2097152 > oneMB then [.long] else [.short])
    ∧ BackendCall.long ∉ (processJob envBig (some entryProcessing) jobFresh).calls
    ∧ BackendCall.long ∉ (transcribeSynchronously envBig entryProcessing).2 :=
  ⟨worker_backend_selection.1 envBig entryFresh 0 recFresh 2097152 (by simp [entryFresh]) rfl,
   worker_backend_selection.2.1 envBig (some entryProcessing) jobFresh,
   worker_backend_selection.2.2 envBig entryProcessing⟩

/-! ## C4: what a successful attempt writes -/

/-- A recording carrying a stale error message from an earlier failed
attempt. -/
def recStaleError : AudioRecording :=
  { url := "/uploads/audio/u_1_c.webm", filename := "c.webm", size := 10,
    transcriptionStatus := .failed, transcriptionError := some "old boom" }

def entryStaleError : LogEntry := { audioRecordings := [recStaleError] }

/-- C4 counterexample: a successful inline attempt on a recording with a
stale `transcriptionError` completes but leaves the stale error in place —
the inline path does not clear `transcriptionError` (`null`) on success. -/
theorem inline_success_keeps_stale_error :
    (ProcessTranscription envOk entryStaleError 0).outcome = .ok "hello world"
    ∧ recStatus (ProcessTranscription envOk entryStaleError 0).entry 0 = some .completed
    ∧ recError (ProcessTranscription envOk entryStaleError 0).entry 0 = some (some "old boom")
    ∧ recError (ProcessTranscription envOk entryStaleError 0).entry 0 ≠ some none := by
  refine ⟨rfl, rfl, rfl, by decide⟩

/-- C4 (amended): on a successful backend call both worker paths write
`transcript`, set status `completed` and stamp `transcriptionTimestamp`;
the queue-consumer path additionally clears `transcriptionError` to
`null`, but the inline path leaves `transcriptionError` exactly as it was
(visible in the record forms below: the inline result keeps
`audio.transcriptionError`, the queue result has `none`). -/
theorem worker_success_writes :
    (∀ (env : WorkerEnv) (entry : LogEntry) (i : Nat) (audio : AudioRecording) (t : String),
      entry.audioRecordings[i]? = some audio →
      (ProcessTranscription env entry i).outcome = .ok t →
      (ProcessTranscription env entry i).entry.audioRecordings[i]? =
        some { audio with
          transcript := some t
          transcriptionStatus := .completed
          transcriptionTimestamp := some env.now })
    ∧ (∀ (env : WorkerEnv) (entry : LogEntry) (job : JobData) (rec : AudioRecording) (t : String),
      entry.audioRecordings[job.recordingIndex.getD 0]? = some rec →
      (processJob env (some entry) job).outcome = .ok t →
      ((processJob env (some entry) job).store.bind
          fun e => e.audioRecordings[job.recordingIndex.getD 0]?) =
        some { rec with
          transcript := some t
          transcriptionStatus := .completed
          transcriptionTimestamp := some env.now
          transcriptionError := none }) := by
  refine ⟨fun env entry i audio t ha h => ProcessTranscription_ok_rec env entry i audio t ha h,
    ?_⟩
  intro env entry job rec t h hok
  simp only [processJob, h] at hok ⊢
  by_cases hu : rec.url = ""
  · simp [hu] at hok
  · simp only [if_neg hu] at hok ⊢
    cases hr : env.readFile rec.url with
    | error e => simp [hr] at hok
    | ok size =>
        simp only [hr] at hok ⊢
        cases hs : env.shortCall size with
        | error e => simp [hs] at hok
        | ok t0 =>
            simp only [hs, Except.ok.injEq] at hok ⊢
            subst hok
            simp [updateRec_getElem_self, h]

/-- Witness for C4 at concrete inputs: the inline path keeps the stale
error alongside the fresh transcript; the queue path ends with
`transcriptionError = none`. -/
theorem worker_success_writes_witness :
    (ProcessTranscription envOk entryStaleError 0).entry.audioRecordings[0]? =
      some { recStaleError with
        transcript := some "hello world"
        transcriptionStatus := .completed
        transcriptionTimestamp := some envOk.now }
    ∧ ((processJob envOk (some entryFresh) jobFresh).store.bind
        fun e => e.audioRecordings[jobFresh.recordingIndex.getD 0]?) =
      some { recFresh with
        transcript := some "hello world"
        transcriptionStatus := .completed
        transcriptionTimestamp := some envOk.now
        transcriptionError := none } :=
  ⟨worker_success_writes.1 envOk entryStaleError 0 recStaleError "hello world"
      (by simp [entryStaleError]) rfl,
   worker_success_writes.2 envOk entryFresh jobFresh recFresh "hello world"
      (by simp [entryFresh, jobFresh]) rfl⟩

/-! ## C5: unreadable audio files and the retry machinery -/

/-- An environment whose storage reads always fail with an I/O error. -/
def envNoFile : WorkerEnv :=
  { readFile := fun _ => .error "ENOENT: no such file or directory",
    shortCall := fun _ => .ok "x", longCall := fun _ => .ok "y", now := 9 }

/-- C5 counterexample: a queue job whose audio file is unreadable ends
with the handler re-throwing the I/O error (after persisting the
failure), and the Bull retry policy — 3 attempts under the configured
`defaultJobOptions` — does schedule a re-attempt after the first and
second failed attempts. -/
theorem queue_retries_unreadable_file :
    (processJob envNoFile (some entryFresh) jobFresh).outcome =
      .error "ENOENT: no such file or directory"
    ∧ ((processJob envNoFile (some entryFresh) jobFresh).store.map fun e => recStatus e 0) =
      some (some .failed)
    ∧ bullSchedulesRetry defaultJobOptions 1 true = true
    ∧ bullSchedulesRetry defaultJobOptions 2 true = true := by
  refine ⟨rfl, rfl, rfl, rfl⟩

/-- C5 (amended): an attempt whose audio file is missing or unreadable is
persisted as a failure (status `failed`, the I/O message in
`transcriptionError`) on both paths, and the inline retry endpoint makes
no backend call and schedules nothing further; but the queue consumer
re-throws I/O errors like any other error, so Bull schedules a retry of
such a job whenever fewer than the 3 configured attempts have been
made. -/
theorem unreadable_file_failure_paths :
    (∀ (env : WorkerEnv) (entry : LogEntry) (i : Nat) (audio : AudioRecording) (e : String),
      entry.audioRecordings[i]? = some audio → audio.transcriptionStatus ≠ .processing →
      env.readFile audio.url = .error e →
      (requestTranscription env (some entry) i).response = .error (.transcriptionError e)
      ∧ ((requestTranscription env (some entry) i).store.map fun e2 => recStatus e2 i) =
          some (some .failed)
      ∧ ((requestTranscription env (some entry) i).store.map fun e2 => recError e2 i) =
          some (some (some e))
      ∧ (requestTranscription env (some entry) i).calls = [])
    ∧ (∀ (env : WorkerEnv) (entry : LogEntry) (job : JobData) (rec : AudioRecording) (e : String),
      entry.audioRecordings[job.recordingIndex.getD 0]? = some rec → rec.url ≠ "" →
      env.readFile rec.url = .error e →
      (processJob env (some entry) job).outcome = .error e
      ∧ ((processJob env (some entry) job).store.map
          fun e2 => recStatus e2 (job.recordingIndex.getD 0)) = some (some .failed)
      ∧ ((processJob env (some entry) job).store.map
          fun e2 => recError e2 (job.recordingIndex.getD 0)) = some (some (some e))
      ∧ ∀ attemptsMade, bullSchedulesRetry defaultJobOptions attemptsMade true =
          decide (attemptsMade < 3)) := by
  constructor
  · intro env entry i audio e ha hnp hr
    have ha1 : (updateRec entry i fun a =>
        { a with transcriptionStatus := .processing }).audioRecordings[i]? =
        some { audio with transcriptionStatus := .processing } := by
      rw [updateRec_getElem_self, ha]; rfl
    have hr1 : env.readFile ({ audio with transcriptionStatus := .processing } :
        AudioRecording).url = .error e := hr
    simp only [requestTranscription, ha, if_neg hnp, ProcessTranscription, ha1, hr1]
    simp [recStatus, recError, updateRec_getElem_self, ha1]
  · intro env entry job rec e h hu hr
    simp only [processJob, h, if_neg hu, hr]
    simp [recStatus, recError, updateRec_getElem_self, h, bullSchedulesRetry,
      defaultJobOptions]

/-- Witness for C5 at concrete inputs. -/
theorem unreadable_file_failure_paths_witness :
    ((requestTranscription envNoFile (some entryFresh) 0).response =
        .error (.transcriptionError "ENOENT: no such file or directory")
      ∧ ((requestTranscription envNoFile (some entryFresh) 0).store.map
          fun e2 => recStatus e2 0) = some (some .failed)
      ∧ ((requestTranscription envNoFile (some entryFresh) 0).store.map
          fun e2 => recError e2 0) =
          some (some (some "ENOENT: no such file or directory"))
      ∧ (requestTranscription envNoFile (some entryFresh) 0).calls = [])
    ∧ ((processJob envNoFile (some entryProcessing) jobFresh).outcome =
        .error "ENOENT: no such file or directory"
      ∧ ((processJob envNoFile (some entryProcessing) jobFresh).store.map
          fun e2 => recStatus e2 (jobFresh.recordingIndex.getD 0)) = some (some .failed)
      ∧ ((processJob envNoFile (some entryProcessing) jobFresh).store.map
          fun e2 => recError e2 (jobFresh.recordingIndex.getD 0)) =
          some (some (some "ENOENT: no such file or directory"))
      ∧ ∀ attemptsMade, bullSchedulesRetry defaultJobOptions attemptsMade true =
          decide (attemptsMade < 3)) :=
  ⟨unreadable_file_failure_paths.1 envNoFile entryFresh 0 recFresh
      "ENOENT: no such file or directory" (by simp [entryFresh]) (by decide) rfl,
   unreadable_file_failure_paths.2 envNoFile entryProcessing jobFresh recProcessing
      "ENOENT: no such file or directory" (by simp [entryProcessing, jobFresh])
      (by decide) rfl⟩

/-! ## C6: `processing` is persisted before dispatch -/

/-- The queue consumer never writes `not_requested`: if the addressed
recording was not `not_requested` when the job was picked up, no state the
consumer saves shows it as `not_requested`. -/
theorem processJob_no_not_requested (env : WorkerEnv) (entry : LogEntry) (job : JobData)
    (e2 : LogEntry) (h0 : recStatus entry (job.recordingIndex.getD 0) ≠ some .not_requested)
    (hst : (processJob env (some entry) job).store = some e2) :
    recStatus e2 (job.recordingIndex.getD 0) ≠ some .not_requested := by
  cases h : entry.audioRecordings[job.recordingIndex.getD 0]? with
  | none =>
      simp only [processJob, h] at hst
      simp only [Option.some.injEq] at hst
      subst hst
      exact h0
  | some r =>
      by_cases hu : r.url = ""
      · simp only [processJob, h, if_pos hu, Option.some.injEq] at hst
        subst hst
        simp [recStatus, updateRec_getElem_self, h]
      · simp only [processJob, h, if_neg hu] at hst
        cases hr : env.readFile r.url with
        | error e =>
            simp only [hr, Option.some.injEq] at hst
            subst hst
            simp [recStatus, updateRec_getElem_self, h]
        | ok size =>
            simp only [hr] at hst
            cases hs : env.shortCall size with
            | error e =>
                simp only [hs, Option.some.injEq] at hst
                subst hst
                simp [recStatus, updateRec_getElem_self, h]
            | ok t =>
                simp only [hs, Option.some.injEq] at hst
                subst hst
                simp [recStatus, updateRec_getElem_self, h]

/-- C6: every dispatch path persists `processing` before kicking off
transcription, so a status read made after dispatch has begun never
observes `not_requested` for an in-flight recording: the state the upload route
persists at dispatch time has status `processing` and the detached
worker run only moves it to a terminal status; the create-entry route
builds the recording with status `processing` at creation, and neither the
dispatch branch nor the queue consumer ever writes `not_requested`. -/
theorem dispatch_persists_processing :
    (∀ (env : WorkerEnv) (userId : String) (entry : LogEntry) (file : UploadedFile),
      recStatus (uploadAudioDispatch env userId entry file).atReturn
        (uploadAudioDispatch env userId entry file).audioIndex = some .processing
      ∧ recStatus (uploadAudioDispatch env userId entry file).asyncFinal
          (uploadAudioDispatch env userId entry file).audioIndex ≠ some .not_requested)
    ∧ (∀ (url filename : String) (size now : Nat),
      (createEntryAudioRecording url filename size now).transcriptionStatus = .processing)
    ∧ (∀ (env : WorkerEnv) (ra qc et : Bool) (entryId : String) (entry : LogEntry),
      recStatus entry 0 ≠ some .not_requested →
      recStatus (createEntryDispatch env ra qc et entryId entry).entry 0 ≠
        some .not_requested)
    ∧ (∀ (env : WorkerEnv) (entry : LogEntry) (job : JobData) (e2 : LogEntry),
      recStatus entry (job.recordingIndex.getD 0) ≠ some .not_requested →
      (processJob env (some entry) job).store = some e2 →
      recStatus e2 (job.recordingIndex.getD 0) ≠ some .not_requested) := by
  refine ⟨?_, fun url filename size now => rfl,
    fun env ra qc et entryId entry h0 =>
      createEntryDispatch_no_not_requested env ra qc et entryId entry h0,
    fun env entry job e2 h0 hst => processJob_no_not_requested env entry job e2 h0 hst⟩
  intro env userId entry file
  refine ⟨(uploadAudioDispatch_status env userId entry file).1, ?_⟩
  rcases (uploadAudioDispatch_status env userId entry file).2 with h | h <;> simp [h]

/-- Witness for C6 at concrete inputs. -/
theorem dispatch_persists_processing_witness :
    (recStatus (uploadAudioDispatch envOk "u1" entryEmpty fileHalfMB).atReturn
        (uploadAudioDispatch envOk "u1" entryEmpty fileHalfMB).audioIndex = some .processing
      ∧ recStatus (uploadAudioDispatch envOk "u1" entryEmpty fileHalfMB).asyncFinal
          (uploadAudioDispatch envOk "u1" entryEmpty fileHalfMB).audioIndex ≠
          some .not_requested)
    ∧ (createEntryAudioRecording "/uploads/audio/x.webm" "x.webm" 10 5).transcriptionStatus =
        .processing
    ∧ recStatus (createEntryDispatch envOk false false false "e1" entryProcessing).entry 0 ≠
        some .not_requested
    ∧ ∀ e2, (processJob envOk (some entryProcessing) jobFresh).store = some e2 →
        recStatus e2 (jobFresh.recordingIndex.getD 0) ≠ some .not_requested :=
  ⟨dispatch_persists_processing.1 envOk "u1" entryEmpty fileHalfMB,
   dispatch_persists_processing.2.1 "/uploads/audio/x.webm" "x.webm" 10 5,
   dispatch_persists_processing.2.2.1 envOk false false false "e1" entryProcessing
     (by decide),
   fun e2 hst => dispatch_persists_processing.2.2.2 envOk entryProcessing jobFresh e2
     (by decide) hst⟩

/-! ## C7: what success and failure of the retry endpoint imply -/

/-- A backend that answers with an empty transcript (the Google `recognize` call
returns no results: `response.results.map(...).join` is the empty
string, no error is thrown). -/
def envEmptyTranscript : WorkerEnv :=
  { readFile := fun _ => .ok 10, shortCall := fun _ => .ok "",
    longCall := fun _ => .ok "", now := 3 }

/-- C7 counterexample: `requestTranscription` can return success with
status `completed` while the stored transcript is the empty string — a
backend call that yields no results still counts as success, so
"transcript is non-empty" does not hold. -/
theorem requestTranscription_empty_transcript_success :
    (requestTranscription envEmptyTranscript (some entryFresh) 0).response = .ok (some "")
    ∧ ((requestTranscription envEmptyTranscript (some entryFresh) 0).store.map
        fun e => recStatus e 0) = some (some .completed)
    ∧ ((requestTranscription envEmptyTranscript (some entryFresh) 0).store.map
        fun e => recTranscript e 0) = some (some (some "")) := by
  refine ⟨rfl, rfl, rfl⟩

/-- C7 (amended): after `requestTranscription` succeeds the addressed
recording has status `completed` and a transcript field holding exactly the returned
transcript — which is present but may be empty; after it fails (past the
not-already-processing check) the status is `failed` and
`transcriptionError` holds exactly the error message (hence non-empty
whenever that message is). -/
theorem requestTranscription_outcome_state (env : WorkerEnv) (entry : LogEntry) (i : Nat)
    (audio : AudioRecording) (ha : entry.audioRecordings[i]? = some audio)
    (hnp : audio.transcriptionStatus ≠ .processing) :
    (∀ r, (requestTranscription env (some entry) i).response = .ok r →
      ∃ e2, (requestTranscription env (some entry) i).store = some e2
        ∧ recStatus e2 i = some .completed
        ∧ recTranscript e2 i = some r
        ∧ r ≠ none)
    ∧ (∀ msg, (requestTranscription env (some entry) i).response =
        .error (.transcriptionError msg) →
      ∃ e2, (requestTranscription env (some entry) i).store = some e2
        ∧ recStatus e2 i = some .failed
        ∧ recError e2 i = some (some msg)) := by
  have ha1 : (updateRec entry i fun a =>
      { a with transcriptionStatus := .processing }).audioRecordings[i]? =
      some { audio with transcriptionStatus := .processing } := by
    rw [updateRec_getElem_self, ha]; rfl
  constructor
  · intro r hresp
    cases hout : (ProcessTranscription env
        (updateRec entry i fun a => { a with transcriptionStatus := .processing }) i).outcome with
    | error e =>
        simp only [requestTranscription, ha, if_neg hnp, hout] at hresp
        exact absurd hresp (by simp)
    | ok t =>
        have hrec := ProcessTranscription_ok_rec env _ i _ t ha1 hout
        simp only [requestTranscription, ha, if_neg hnp, hout] at hresp ⊢
        refine ⟨_, rfl, ?_, ?_, ?_⟩
        · simp [recStatus, hrec]
        · simp only [Except.ok.injEq] at hresp
          simp [recTranscript, hrec, ← hresp, hrec]
        · simp only [Except.ok.injEq] at hresp
          rw [← hresp]
          simp [hrec]
  · intro msg hresp
    cases hout : (ProcessTranscription env
        (updateRec entry i fun a => { a with transcriptionStatus := .processing }) i).outcome with
    | ok t =>
        simp only [requestTranscription, ha, if_neg hnp, hout] at hresp
        exact absurd hresp (by simp)
    | error e =>
        have hrec := ProcessTranscription_error_rec env _ i _ e ha1 hout
        simp only [requestTranscription, ha, if_neg hnp, hout] at hresp ⊢
        have he : e = msg := by
          simpa using hresp
        subst he
        refine ⟨_, rfl, ?_, ?_⟩
        · simp [recStatus, hrec]
        · simp [recError, hrec]

/-- Witness for C7 at concrete inputs: a successful run on a fresh
recording yields `completed` with the backend transcript stored. -/
theorem requestTranscription_outcome_state_witness :
    ∃ e2, (requestTranscription envOk (some entryFresh) 0).store = some e2
      ∧ recStatus e2 0 = some .completed
      ∧ recTranscript e2 0 = some (some "hello world")
      ∧ (some "hello world" : Option String) ≠ none :=
  (requestTranscription_outcome_state envOk entryFresh 0 recFresh
    (by simp [entryFresh]) (by decide)).1 (some "hello world") rfl

/-! ## C8: precondition and frame of the transcript post-processor -/

/-- The field write the post-processor performs on the addressed
recording: set `improvedTranscript` and stamp its timestamp. -/
def setImproved (g : String) (now : Nat) (a : AudioRecording) : AudioRecording :=
  { a with improvedTranscript := some g, improvedTranscriptTimestamp := some now }

/-- A recording holding a transcript from an earlier successful
attempt. -/
def recWithTranscript : AudioRecording :=
  { url := "/uploads/audio/u_1_d.webm", filename := "d.webm", size := 10,
    transcript := some "old transcript", transcriptionStatus := .completed }

def entryWithTranscript : LogEntry := { audioRecordings := [recWithTranscript] }

/-- A generative backend that prefixes a heading. -/
def genEnvA : GenEnv := { generate := fun t => .ok ("## " ++ t), now := 11 }

/-- A second generative backend with a different result and clock. -/
def genEnvB : GenEnv := { generate := fun t => .ok ("### " ++ t), now := 12 }

/-- C8: `improveTranscript` fails with the transcript-required error when
the stored transcript is absent or empty (JS-falsy), saving nothing;
on success it writes only `improvedTranscript` and
`improvedTranscriptTimestamp` of the addressed recording — its transcript
(and every other field, and every other recording) is unchanged — and a
second successful call, which again finds the transcript it requires,
overwrites `improvedTranscript`. -/
theorem improveTranscript_frame (env env2 : GenEnv) (entry : LogEntry) (i : Nat)
    (audio : AudioRecording) (ha : entry.audioRecordings[i]? = some audio) :
    (jsFalsy audio.transcript = true →
      improveTranscript env (some entry) i =
        { store := some entry, response := .error .transcriptRequired })
    ∧ (∀ g, jsFalsy audio.transcript = false →
      env.generate (audio.transcript.getD "") = .ok g →
      (improveTranscript env (some entry) i).response = .ok g
      ∧ ((improveTranscript env (some entry) i).store.bind
          fun e => e.audioRecordings[i]?) =
        some { audio with
          improvedTranscript := some g
          improvedTranscriptTimestamp := some env.now }
      ∧ (∀ j, j ≠ i → ((improveTranscript env (some entry) i).store.map
          fun e => e.audioRecordings[j]?) = some (entry.audioRecordings[j]?))
      ∧ (∀ g2, env2.generate (audio.transcript.getD "") = .ok g2 →
        (improveTranscript env2 (improveTranscript env (some entry) i).store i).response =
          .ok g2
        ∧ ((improveTranscript env2
              (improveTranscript env (some entry) i).store i).store.bind
            fun e => e.audioRecordings[i]?) =
          some { audio with
            improvedTranscript := some g2
            improvedTranscriptTimestamp := some env2.now })) := by
  constructor
  · intro hfal
    simp [improveTranscript, ha, hfal]
  · intro g hfal hg
    have hstep : improveTranscript env (some entry) i =
        { store := some (updateRec entry i (setImproved g env.now))
          response := .ok g } := by
      simp only [improveTranscript, ha, hfal, hg]
      rfl
    have ha2 : (updateRec entry i (setImproved g env.now)).audioRecordings[i]? =
        some (setImproved g env.now audio) := by
      rw [updateRec_getElem_self, ha]; rfl
    refine ⟨by rw [hstep], ?_, ?_, ?_⟩
    · rw [hstep]
      show (updateRec entry i (setImproved g env.now)).audioRecordings[i]? = _
      rw [ha2]
      rfl
    · intro j hj
      rw [hstep]
      show some ((updateRec entry i (setImproved g env.now)).audioRecordings[j]?) = _
      rw [updateRec_getElem_ne entry i j _ (Ne.symm hj)]
    · intro g2 hg2
      have hfal2 : jsFalsy (setImproved g env.now audio).transcript = false := hfal
      have hg2x : env2.generate ((setImproved g env.now audio).transcript.getD "") =
          .ok g2 := hg2
      rw [hstep]
      have hstep2 : improveTranscript env2
          (some (updateRec entry i (setImproved g env.now))) i =
          { store := some (updateRec (updateRec entry i (setImproved g env.now)) i
              (setImproved g2 env2.now))
            response := .ok g2 } := by
        simp only [improveTranscript, ha2, hfal2, hg2x]
        rfl
      rw [hstep2]
      refine ⟨rfl, ?_⟩
      show (updateRec (updateRec entry i (setImproved g env.now)) i
        (setImproved g2 env2.now)).audioRecordings[i]? = _
      rw [updateRec_getElem_self, ha2]
      rfl

/-- Witness for C8 at concrete inputs: a transcript-less recording is
rejected; a transcribed one gets only its improved-transcript fields
written. -/
theorem improveTranscript_frame_witness :
    improveTranscript genEnvA (some entryFresh) 0 =
      { store := some entryFresh, response := .error .transcriptRequired }
    ∧ ((improveTranscript genEnvA (some entryWithTranscript) 0).store.bind
        fun e => e.audioRecordings[0]?) =
      some { recWithTranscript with
        improvedTranscript := some "## old transcript"
        improvedTranscriptTimestamp := some 11 } :=
  ⟨(improveTranscript_frame genEnvA genEnvB entryFresh 0 recFresh
      (by simp [entryFresh])).1 rfl,
   ((improveTranscript_frame genEnvA genEnvB entryWithTranscript 0 recWithTranscript
      (by simp [entryWithTranscript])).2 "## old transcript" (by decide) rfl).2.1⟩

/-! ## C9: job options carried by enqueued transcription jobs -/

/-- C9: the `defaultJobOptions` of the queue configure at most 3 total
attempts, exponential backoff from a 2000 ms base, and retention of the
last 200 permanently failed jobs — and every job the create-entry dispatch
enqueues carries exactly these options. -/
theorem queue_job_options :
    defaultJobOptions.attempts = 3
    ∧ defaultJobOptions.backoffType = "exponential"
    ∧ defaultJobOptions.backoffDelay = 2000
    ∧ defaultJobOptions.removeOnFail = 200
    ∧ ∀ (env : WorkerEnv) (ra qc et : Bool) (entryId : String) (entry : LogEntry)
        (j : QueuedJob),
      j ∈ (createEntryDispatch env ra qc et entryId entry).jobs →
      j.opts = defaultJobOptions := by
  refine ⟨rfl, rfl, rfl, rfl, ?_⟩
  intro env ra qc et entryId entry j hj
  by_cases hlen : entry.audioRecordings.length > 0
  · by_cases hq : (ra && qc) = true
    · by_cases he : et = true
      · rw [createEntryDispatch_fallback_eq env ra qc et entryId entry hlen (Or.inr he)] at hj
        simp at hj
      · simp only [createEntryDispatch, if_pos hlen, hq, if_true] at hj
        rw [if_neg (by simpa using he)] at hj
        simp only [List.mem_singleton] at hj
        subst hj
        rfl
    · rw [createEntryDispatch_fallback_eq env ra qc et entryId entry hlen
        (Or.inl (by simpa using hq))] at hj
      simp at hj
  · simp [createEntryDispatch, hlen] at hj

/-- The concrete job the create-entry dispatch enqueues for `entryFresh`
when the queue is up. -/
def jobEnqueued : QueuedJob :=
  { data := { entryId := "e1", audioUrl := "/uploads/audio/u_1_b.webm", recordingIndex := some 0 }
    opts := defaultJobOptions }

/-- Witness for C9: the job enqueued for a concrete entry carries
`defaultJobOptions`. -/
theorem queue_job_options_witness :
    jobEnqueued ∈ (createEntryDispatch envOk true true false "e1" entryFresh).jobs
    ∧ jobEnqueued.opts = defaultJobOptions :=
  ⟨by decide,
   queue_job_options.2.2.2.2 envOk true true false "e1" entryFresh jobEnqueued (by decide)⟩

/-! ## C10: failed attempts never clobber an earlier transcript -/

/-- C10: on both worker failure paths the failing attempt writes only
`transcriptionStatus := failed` and `transcriptionError` — the record
forms below keep every other field, `transcript` included, so a recording
can show status `failed`, a non-empty `transcriptionError` and the stale
transcript at once. -/
theorem failed_attempt_preserves_transcript :
    (∀ (env : WorkerEnv) (entry : LogEntry) (i : Nat) (audio : AudioRecording) (e : String),
      entry.audioRecordings[i]? = some audio →
      (ProcessTranscription env entry i).outcome = .error e →
      (ProcessTranscription env entry i).entry.audioRecordings[i]? =
        some { audio with
          transcriptionStatus := .failed
          transcriptionError := some e })
    ∧ (∀ (env : WorkerEnv) (entry : LogEntry) (job : JobData) (rec : AudioRecording)
        (e : String),
      entry.audioRecordings[job.recordingIndex.getD 0]? = some rec → rec.url ≠ "" →
      (processJob env (some entry) job).outcome = .error e →
      ((processJob env (some entry) job).store.bind
          fun e2 => e2.audioRecordings[job.recordingIndex.getD 0]?) =
        some { rec with
          transcriptionStatus := .failed
          transcriptionError := some e }) := by
  refine ⟨fun env entry i audio e ha h =>
    ProcessTranscription_error_rec env entry i audio e ha h, ?_⟩
  intro env entry job rec e h hu herr
  simp only [processJob, h, if_neg hu] at herr ⊢
  cases hr : env.readFile rec.url with
  | error e0 =>
      simp only [hr, Except.error.injEq] at herr ⊢
      subst herr
      simp [updateRec_getElem_self, h]
  | ok size =>
      simp only [hr] at herr ⊢
      cases hs : env.shortCall size with
      | error e0 =>
          simp only [hs, Except.error.injEq] at herr ⊢
          subst herr
          simp [updateRec_getElem_self, h]
      | ok t => simp [hs] at herr

/-- Witness for C10 at concrete inputs: after a failed attempt on either
path the stale transcript is still stored next to status `failed` and the
I/O error. -/
theorem failed_attempt_preserves_transcript_witness :
    (ProcessTranscription envNoFile entryWithTranscript 0).entry.audioRecordings[0]? =
      some { recWithTranscript with
        transcriptionStatus := .failed
        transcriptionError := some "ENOENT: no such file or directory" }
    ∧ ((processJob envNoFile (some entryWithTranscript) jobFresh).store.bind
        fun e2 => e2.audioRecordings[jobFresh.recordingIndex.getD 0]?) =
      some { recWithTranscript with
        transcriptionStatus := .failed
        transcriptionError := some "ENOENT: no such file or directory" }
    ∧ recTranscript (ProcessTranscription envNoFile entryWithTranscript 0).entry 0 =
      some (some "old transcript") :=
  ⟨failed_attempt_preserves_transcript.1 envNoFile entryWithTranscript 0 recWithTranscript
      "ENOENT: no such file or directory" (by simp [entryWithTranscript]) rfl,
   failed_attempt_preserves_transcript.2 envNoFile entryWithTranscript jobFresh
      recWithTranscript "ENOENT: no such file or directory"
      (by simp [entryWithTranscript, jobFresh]) (by decide) rfl,
   rfl⟩
